import Mathlib

/-!
Verification of the batch collation (`PadFunction`) and training-step logic
of a sequence-to-sequence translation trainer (`model.py`).

Token-id sequences are embedded as `List Nat`, 2D tensors as `List (List Nat)`
(row-major, as produced by the code: one row per batch element).  Fallible
operations (Python exceptions) are embedded with `Option`.
-/

namespace DeepT

/-- Python `max` over a list of naturals: undefined (raises `ValueError`)
on the empty list, hence `Option`. -/
def listMax : List Nat → Option Nat
  | [] => none
  | x :: xs => some (xs.foldl Nat.max x)

/-- Spec-side formulation of "the maximum of the lengths L1..Ln"
(`0` on the empty list). -/
def batchMax (ls : List Nat) : Nat := ls.foldr Nat.max 0

/-- One of the two structures returned by `PadFunction._pad_fn`: a
`token_ids` grid and a boolean `mask`, one row per batch element. -/
structure Tokens where
  token_ids : List (List Nat)
  mask : List (List Bool)
  deriving Repr, DecidableEq

/-- One row of the padded grid built by `PadFunction.merge`: the row starts
as `pad_id` everywhere (`torch.full`), then `padded_seqs[i, :end] = seq[:end]`
overwrites the first `len(seq)` slots. -/
def fillRow (padId padSize : Nat) (seq : List Nat) : List Nat :=
  (List.range padSize).map fun j => if j < seq.length then seq.getD j padId else padId

/-- `PadFunction.merge`: compute per-sequence lengths, default the pad size
to the maximum length (raising on an empty list, hence `Option`), allocate a
`(len(lengths), pad_size)` grid of `pad_id` and copy each sequence into its
row.  Returns the grid and the original lengths. -/
def merge (padId : Nat) (sequences : List (List Nat)) (padSize? : Option Nat) :
    Option (List (List Nat) × List Nat) :=
  let lengths := sequences.map List.length
  let size? := match padSize? with
    | some s => some s
    | none => listMax lengths
  size?.map fun padSize => (sequences.map (fillRow padId padSize), lengths)

/-- `t.shape[1]` for a row-major 2D grid (all rows of our grids have equal
length). -/
def shape1 (g : List (List α)) : Nat := (g.headD []).length

/-- `PadFunction.make_mask`: `arange(max_len).expand(len(lengths), max_len)
< tensor(lengths).unsqueeze(1)` — row `i`, column `j` is `j < lengths[i]`,
with `max_len` taken from `inputs.shape[1]`. -/
def make_mask (inputs : List (List Nat)) (inputs_length : List Nat) :
    List (List Bool) :=
  let max_len := shape1 inputs
  inputs_length.map fun L => (List.range max_len).map fun j => decide (j < L)

/-- `src_seqs, trg_seqs = tuple(zip(*batch))`: unpacking the transposed batch
into two tuples; on an empty batch `tuple(zip(*[]))` is `()` and the
unpacking raises `ValueError`, hence `none`. -/
def unzipBatch : List (List Nat × List Nat) → Option (List (List Nat) × List (List Nat))
  | [] => none
  | l => some (l.map Prod.fst, l.map Prod.snd)

/-- `PadFunction._pad_fn` (the body of `PadFunction.__call__`): split the
batch into source and target sequences, merge each with `pad_size = None`,
and pair each padded grid with its mask. -/
def pad_fn (padId : Nat) (batch : List (List Nat × List Nat)) :
    Option (Tokens × Tokens) :=
  (unzipBatch batch).bind fun st =>
  (merge padId st.1 none).bind fun sr =>
  (merge padId st.2 none).map fun tr =>
    ({ token_ids := sr.1, mask := make_mask sr.1 sr.2 },
     { token_ids := tr.1, mask := make_mask tr.1 tr.2 })

/-- `x[..., :-1]`: drop the last position along the final dimension. -/
def dropLastCol (g : List (List α)) : List (List α) :=
  g.map fun r => r.take (r.length - 1)

/-- `x[..., 1:]`: drop the first position along the final dimension. -/
def shiftCol (g : List (List α)) : List (List α) :=
  g.map (List.drop 1)

/-- `torch.nn.CrossEntropyLoss(ignore_index=...)` with the default mean
reduction, applied to already-flattened (logit-row, target-class) pairs:
positions whose target equals `ignore_index` contribute nothing to the sum
and are not counted in the averaging denominator.  The per-position numeric
kernel `ell` (log-softmax / negative log-likelihood, external) is abstract. -/
def crossEntropyLoss (ignoreIndex : Nat) (ell : α → Nat → ℚ)
    (pairs : List (α × Nat)) : ℚ :=
  let kept := pairs.filter fun pq => pq.2 != ignoreIndex
  (kept.map fun pq => ell pq.1 pq.2).sum / kept.length

/-- `BartForMaskedLM.training_step`.  The transformer plus LM head
(`self.forward`, an external network producing per-position logit rows of
shape batch × decoder-length) and the numeric loss kernel are abstract
parameters.  The decoder is fed `label_ids[..., :-1]` and
`label_mask[..., :-1]`; the loss compares the flattened logits
(`view(-1, vocab_size)`) against the flattened `label_ids[..., 1:]` with
`ignore_index = self.pad_token_id`. -/
def training_step (pad_token_id : Nat)
    (forward : Tokens → Tokens → List (List α)) (ell : α → Nat → ℚ)
    (batch : Tokens × Tokens) : ℚ :=
  let inputs := batch.1
  let labels := batch.2
  let lm_logits := forward
    { token_ids := inputs.token_ids, mask := inputs.mask }
    { token_ids := dropLastCol labels.token_ids,
      mask := dropLastCol labels.mask }
  let shift_label_ids := shiftCol labels.token_ids
  crossEntropyLoss pad_token_id ell (lm_logits.flatten.zip shift_label_ids.flatten)

/-- `BartForMaskedLM.validation_step`: computes the same quantity with the
same slicing and the same `ignore_index`, logging it as `val_loss`;
modelled as returning the logged value. -/
def validation_step (pad_token_id : Nat)
    (forward : Tokens → Tokens → List (List α)) (ell : α → Nat → ℚ)
    (batch : Tokens × Tokens) : ℚ :=
  let inputs := batch.1
  let labels := batch.2
  let lm_logits := forward
    { token_ids := inputs.token_ids, mask := inputs.mask }
    { token_ids := dropLastCol labels.token_ids,
      mask := dropLastCol labels.mask }
  let shift_label_ids := shiftCol labels.token_ids
  crossEntropyLoss pad_token_id ell (lm_logits.flatten.zip shift_label_ids.flatten)

/-- Normal form of one side of the `pad_fn` output (proof-layer helper):
the grid and the mask both expressed directly in terms of the input
sequences. -/
def padTokens (p : Nat) (seqs : List (List Nat)) : Tokens :=
  let M := batchMax (seqs.map List.length)
  { token_ids := seqs.map (fillRow p M),
    mask := (seqs.map List.length).map fun L =>
      (List.range M).map fun j => decide (j < L) }

/-! ### Basic lemmas about the embedded operations -/

theorem getD_mapRange (f : Nat → α) (n j : Nat) (d : α) :
    ((List.range n).map f).getD j d = if j < n then f j else d := by
  rw [List.getD_eq_getElem?_getD, List.getElem?_map]
  by_cases h : j < n
  · rw [List.getElem?_range h, if_pos h]
    rfl
  · rw [List.getElem?_eq_none (by simpa using Nat.le_of_not_lt h), if_neg h]
    rfl

theorem getD_map_lt (f : α → β) {l : List α} {i : Nat} (h : i < l.length)
    (d : α) (d' : β) : (l.map f).getD i d' = f (l.getD i d) := by
  rw [List.getD_eq_getElem _ _ (by simpa using h), List.getElem_map,
    List.getD_eq_getElem _ _ h]

theorem foldl_max_eq (xs : List Nat) (a : Nat) :
    xs.foldl Nat.max a = Nat.max a (batchMax xs) := by
  induction xs generalizing a with
  | nil => simp [batchMax]
  | cons x tl ih =>
    rw [List.foldl_cons, ih]
    simp [batchMax, Nat.max_assoc]

theorem listMax_of_ne_nil {l : List Nat} (h : l ≠ []) :
    listMax l = some (batchMax l) := by
  cases l with
  | nil => exact absurd rfl h
  | cons x xs => simp [listMax, foldl_max_eq, batchMax]

theorem le_batchMax {l : List Nat} {x : Nat} (h : x ∈ l) : x ≤ batchMax l := by
  induction l with
  | nil => cases h
  | cons a tl ih =>
    rcases List.mem_cons.mp h with rfl | h
    · exact Nat.le_max_left _ _
    · exact Nat.le_trans (ih h) (Nat.le_max_right _ _)

theorem fillRow_length (p s : Nat) (seq : List Nat) :
    (fillRow p s seq).length = s := by
  simp [fillRow]

theorem fillRow_eq_append {p s : Nat} {seq : List Nat} (h : seq.length ≤ s) :
    fillRow p s seq = seq ++ List.replicate (s - seq.length) p := by
  apply List.ext_getElem
  · simp [fillRow_length]
    omega
  · intro i h1 h2
    have hstep : (fillRow p s seq)[i] = if i < seq.length then seq.getD i p else p := by
      simp [fillRow]
    rw [hstep]
    by_cases hc : i < seq.length
    · rw [if_pos hc, List.getD_eq_getElem _ _ hc, List.getElem_append_left hc]
    · rw [if_neg hc, List.getElem_append_right (Nat.le_of_not_lt hc),
        List.getElem_replicate]

theorem shape1_map_fillRow {p M : Nat} {seqs : List (List Nat)} (h : seqs ≠ []) :
    shape1 (seqs.map (fillRow p M)) = M := by
  cases seqs with
  | nil => exact absurd rfl h
  | cons a tl => simp [shape1, fillRow_length]

theorem make_mask_map_fillRow {p M : Nat} {seqs : List (List Nat)} (h : seqs ≠ []) :
    make_mask (seqs.map (fillRow p M)) (seqs.map List.length) =
      (seqs.map List.length).map fun L =>
        (List.range M).map fun j => decide (j < L) := by
  simp [make_mask, shape1_map_fillRow h]

theorem merge_of_ne_nil (p : Nat) {seqs : List (List Nat)} (h : seqs ≠ []) :
    merge p seqs none =
      some (seqs.map (fillRow p (batchMax (seqs.map List.length))),
        seqs.map List.length) := by
  have h2 : seqs.map List.length ≠ [] := by simpa using h
  simp [merge, listMax_of_ne_nil h2]

theorem unzipBatch_of_ne_nil {batch : List (List Nat × List Nat)}
    (h : batch ≠ []) :
    unzipBatch batch = some (batch.map Prod.fst, batch.map Prod.snd) := by
  cases batch with
  | nil => exact absurd rfl h
  | cons a tl => rfl

theorem pad_fn_of_ne_nil (p : Nat) {batch : List (List Nat × List Nat)}
    (h : batch ≠ []) :
    pad_fn p batch =
      some (padTokens p (batch.map Prod.fst),
        padTokens p (batch.map Prod.snd)) := by
  have hs : batch.map Prod.fst ≠ [] := by simpa using h
  have ht : batch.map Prod.snd ≠ [] := by simpa using h
  rw [pad_fn, unzipBatch_of_ne_nil h]
  simp only [Option.some_bind, merge_of_ne_nil p hs, merge_of_ne_nil p ht,
    Option.map_some']
  rw [make_mask_map_fillRow hs, make_mask_map_fillRow ht]
  rfl

theorem pad_fn_nil (p : Nat) : pad_fn p [] = none := rfl

theorem padTokens_token_ids_length (p : Nat) (seqs : List (List Nat)) :
    (padTokens p seqs).token_ids.length = seqs.length := by
  simp [padTokens]

theorem padTokens_mask_length (p : Nat) (seqs : List (List Nat)) :
    (padTokens p seqs).mask.length = seqs.length := by
  simp [padTokens]

theorem length_getD_le_batchMax {seqs : List (List Nat)} {i : Nat}
    (hi : i < seqs.length) :
    (seqs.getD i []).length ≤ batchMax (seqs.map List.length) := by
  apply le_batchMax
  rw [List.getD_eq_getElem _ _ hi]
  exact List.mem_map.mpr ⟨seqs[i], List.getElem_mem hi, rfl⟩

theorem padTokens_ids_getD {p : Nat} {seqs : List (List Nat)} {i : Nat}
    (hi : i < seqs.length) :
    (padTokens p seqs).token_ids.getD i []
      = fillRow p (batchMax (seqs.map List.length)) (seqs.getD i []) := by
  exact getD_map_lt _ hi [] []

theorem padTokens_mask_getD (p : Nat) (seqs : List (List Nat)) (i j : Nat) :
    ((padTokens p seqs).mask.getD i []).getD j false
      = decide (j < (seqs.getD i []).length) := by
  by_cases hi : i < seqs.length
  · have hm : (padTokens p seqs).mask.getD i []
        = (List.range (batchMax (seqs.map List.length))).map
            fun j => decide (j < (seqs.getD i []).length) := by
      have h1 : ((seqs.map List.length).map fun L =>
            (List.range (batchMax (seqs.map List.length))).map
              fun j => decide (j < L)).getD i []
          = (List.range (batchMax (seqs.map List.length))).map
              fun j => decide (j < (seqs.map List.length).getD i 0) :=
        getD_map_lt _ (by simpa using hi) 0 []
      have h2 : (seqs.map List.length).getD i 0 = (seqs.getD i []).length :=
        getD_map_lt List.length hi [] 0
      rw [show (padTokens p seqs).mask = (seqs.map List.length).map fun L =>
          (List.range (batchMax (seqs.map List.length))).map
            fun j => decide (j < L) from rfl, h1, h2]
    rw [hm, getD_mapRange]
    by_cases hj : j < batchMax (seqs.map List.length)
    · rw [if_pos hj]
    · rw [if_neg hj]
      have hle := length_getD_le_batchMax hi
      symm
      simp only [decide_eq_false_iff_not]
      omega
  · have h1 : (padTokens p seqs).mask.getD i [] = [] := by
      apply List.getD_eq_default
      rw [padTokens_mask_length]
      omega
    have h2 : seqs.getD i [] = [] :=
      List.getD_eq_default _ _ (Nat.le_of_not_lt hi)
    rw [h1, h2]
    simp

theorem fillRow_getD (p s : Nat) (seq : List Nat) (j d : Nat) :
    (fillRow p s seq).getD j d
      = if j < s then (if j < seq.length then seq.getD j p else p) else d := by
  rw [fillRow, getD_mapRange]

theorem getD_map_fst (batch : List (List Nat × List Nat)) (i : Nat) :
    (batch.map Prod.fst).getD i [] = (batch.getD i ([], [])).1 := by
  induction batch generalizing i with
  | nil => simp
  | cons a tl ih =>
    cases i with
    | zero => rfl
    | succ n => exact ih n

theorem getD_map_snd (batch : List (List Nat × List Nat)) (i : Nat) :
    (batch.map Prod.snd).getD i [] = (batch.getD i ([], [])).2 := by
  induction batch generalizing i with
  | nil => simp
  | cons a tl ih =>
    cases i with
    | zero => rfl
    | succ n => exact ih n

theorem pad_fn_some_inv {p : Nat} {batch : List (List Nat × List Nat)}
    {src trg : Tokens} (h : pad_fn p batch = some (src, trg)) :
    batch ≠ [] ∧ src = padTokens p (batch.map Prod.fst)
      ∧ trg = padTokens p (batch.map Prod.snd) := by
  have hne : batch ≠ [] := by
    rintro rfl
    rw [pad_fn_nil] at h
    cases h
  rw [pad_fn_of_ne_nil p hne] at h
  have h2 := Option.some_inj.mp h
  exact ⟨hne, (congrArg Prod.fst h2).symm, (congrArg Prod.snd h2).symm⟩

/-- C1: in every batch collated by `PadFunction`, the mask entry of the
source (resp. target) structure at row `i`, position `j` is `true` iff
`j < Li`, where `Li` is the original length of the `i`-th source
(resp. target) sequence; in particular the mask depends only on the
original per-sequence lengths. -/
theorem C1_mask_iff_lt_length (p : Nat) (batch : List (List Nat × List Nat))
    (src trg : Tokens) (h : pad_fn p batch = some (src, trg)) (i j : Nat) :
    ((src.mask.getD i []).getD j false = true
        ↔ j < ((batch.getD i ([], [])).1).length)
    ∧ ((trg.mask.getD i []).getD j false = true
        ↔ j < ((batch.getD i ([], [])).2).length) := by
  obtain ⟨hne, rfl, rfl⟩ := pad_fn_some_inv h
  rw [padTokens_mask_getD, padTokens_mask_getD, getD_map_fst, getD_map_snd]
  simp

/-- C1 witness: concrete instantiation on the batch `[([1, 2], [5])]`. -/
theorem C1_mask_iff_lt_length_witness :
    pad_fn 0 [([1, 2], [5])] =
      some ({ token_ids := [[1, 2]], mask := [[true, true]] },
            { token_ids := [[5]], mask := [[true]] }) ∧
    ((({ token_ids := [[1, 2]], mask := [[true, true]] } : Tokens).mask.getD 0 []).getD 1 false = true
        ↔ 1 < (([([1, 2], [5])].getD 0 ([], [])).1).length)
    ∧ ((({ token_ids := [[5]], mask := [[true]] } : Tokens).mask.getD 0 []).getD 1 false = true
        ↔ 1 < (([([1, 2], [5])].getD 0 ([], [])).2).length) :=
  ⟨by decide, C1_mask_iff_lt_length 0 [([1, 2], [5])] _ _ (by decide) 0 1⟩

/-- C2: the padded `token_ids` grids returned by `PadFunction` have width
exactly the maximum sequence length within the batch — both as `shape[1]`
and row by row — for source and target separately. -/
theorem C2_width_eq_batchMax (p : Nat) (batch : List (List Nat × List Nat))
    (src trg : Tokens) (h : pad_fn p batch = some (src, trg)) :
    (shape1 src.token_ids = batchMax (batch.map fun pr => pr.1.length)
      ∧ ∀ row ∈ src.token_ids,
          row.length = batchMax (batch.map fun pr => pr.1.length))
    ∧ (shape1 trg.token_ids = batchMax (batch.map fun pr => pr.2.length)
      ∧ ∀ row ∈ trg.token_ids,
          row.length = batchMax (batch.map fun pr => pr.2.length)) := by
  obtain ⟨hne, rfl, rfl⟩ := pad_fn_some_inv h
  have hs : batch.map Prod.fst ≠ [] := by simpa using hne
  have ht : batch.map Prod.snd ≠ [] := by simpa using hne
  have e1 : (batch.map Prod.fst).map List.length
      = batch.map fun pr => pr.1.length := by
    simp [List.map_map]
  have e2 : (batch.map Prod.snd).map List.length
      = batch.map fun pr => pr.2.length := by
    simp [List.map_map]
  refine ⟨⟨?_, ?_⟩, ⟨?_, ?_⟩⟩
  · rw [show (padTokens p (batch.map Prod.fst)).token_ids
        = (batch.map Prod.fst).map
            (fillRow p (batchMax ((batch.map Prod.fst).map List.length))) from rfl,
      shape1_map_fillRow hs, e1]
  · intro row hrow
    rcases List.mem_map.mp hrow with ⟨seq, _, rfl⟩
    rw [fillRow_length, e1]
  · rw [show (padTokens p (batch.map Prod.snd)).token_ids
        = (batch.map Prod.snd).map
            (fillRow p (batchMax ((batch.map Prod.snd).map List.length))) from rfl,
      shape1_map_fillRow ht, e2]
  · intro row hrow
    rcases List.mem_map.mp hrow with ⟨seq, _, rfl⟩
    rw [fillRow_length, e2]

/-- C2 witness: concrete instantiation on a batch with source lengths 2, 1
and target lengths 1, 3. -/
theorem C2_width_eq_batchMax_witness :
    pad_fn 0 [([1, 2], [5]), ([3], [6, 7, 8])] =
      some (({ token_ids := [[1, 2], [3, 0]],
               mask := [[true, true], [true, false]] } : Tokens),
            ({ token_ids := [[5, 0, 0], [6, 7, 8]],
               mask := [[true, false, false], [true, true, true]] } : Tokens)) ∧
    shape1 ({ token_ids := [[1, 2], [3, 0]],
              mask := [[true, true], [true, false]] } : Tokens).token_ids
      = batchMax ([([1, 2], [5]), ([3], [6, 7, 8])].map fun pr => pr.1.length) :=
  ⟨by decide,
    (C2_width_eq_batchMax 0 [([1, 2], [5]), ([3], [6, 7, 8])]
      ({ token_ids := [[1, 2], [3, 0]],
         mask := [[true, true], [true, false]] } : Tokens)
      ({ token_ids := [[5, 0, 0], [6, 7, 8]],
         mask := [[true, false, false], [true, true, true]] } : Tokens)
      (by decide)).1.1⟩

/-- C3: in every batch collated by `PadFunction`, every `token_ids` entry of
row `i` at a position `j` with `Li ≤ j <` batch width equals the configured
pad id, for source and target alike. -/
theorem C3_padding_positions_eq_pad_id (p : Nat)
    (batch : List (List Nat × List Nat)) (src trg : Tokens)
    (h : pad_fn p batch = some (src, trg)) (i j : Nat)
    (hi : i < batch.length) :
    ((batch.getD i ([], [])).1.length ≤ j → j < shape1 src.token_ids →
      (src.token_ids.getD i []).getD j 0 = p)
    ∧ ((batch.getD i ([], [])).2.length ≤ j → j < shape1 trg.token_ids →
      (trg.token_ids.getD i []).getD j 0 = p) := by
  obtain ⟨hne, rfl, rfl⟩ := pad_fn_some_inv h
  have hs : batch.map Prod.fst ≠ [] := by simpa using hne
  have ht : batch.map Prod.snd ≠ [] := by simpa using hne
  constructor
  · intro hLj hjw
    have hi' : i < (batch.map Prod.fst).length := by simpa using hi
    rw [show (padTokens p (batch.map Prod.fst)).token_ids
        = (batch.map Prod.fst).map
            (fillRow p (batchMax ((batch.map Prod.fst).map List.length))) from rfl,
      shape1_map_fillRow hs] at hjw
    rw [padTokens_ids_getD hi', fillRow_getD, getD_map_fst, if_pos hjw,
      if_neg (by omega)]
  · intro hLj hjw
    have hi' : i < (batch.map Prod.snd).length := by simpa using hi
    rw [show (padTokens p (batch.map Prod.snd)).token_ids
        = (batch.map Prod.snd).map
            (fillRow p (batchMax ((batch.map Prod.snd).map List.length))) from rfl,
      shape1_map_fillRow ht] at hjw
    rw [padTokens_ids_getD hi', fillRow_getD, getD_map_snd, if_pos hjw,
      if_neg (by omega)]

/-- C3 witness: with pad id 7 on a batch of source lengths 2, 1, the
padding slot of the short source row holds 7. -/
theorem C3_padding_positions_eq_pad_id_witness :
    pad_fn 7 [([1, 2], [9]), ([3], [8])] =
      some (({ token_ids := [[1, 2], [3, 7]],
               mask := [[true, true], [true, false]] } : Tokens),
            ({ token_ids := [[9], [8]],
               mask := [[true], [true]] } : Tokens)) ∧
    (({ token_ids := [[1, 2], [3, 7]],
        mask := [[true, true], [true, false]] } : Tokens).token_ids.getD 1 []).getD 1 0 = 7 :=
  ⟨by decide,
    (C3_padding_positions_eq_pad_id 7 [([1, 2], [9]), ([3], [8])]
      ({ token_ids := [[1, 2], [3, 7]],
         mask := [[true, true], [true, false]] } : Tokens)
      ({ token_ids := [[9], [8]], mask := [[true], [true]] } : Tokens)
      (by decide) 1 1 (by decide)).1 (by decide) (by decide)⟩

/-- C4: in every batch collated by `PadFunction`, the first `Li` entries of
row `i` of the output grid are exactly the `i`-th input sequence, in order
(row `i` corresponds to input `i`: no sorting or reordering), for source
and target alike. -/
theorem C4_row_take_eq_input (p : Nat)
    (batch : List (List Nat × List Nat)) (src trg : Tokens)
    (h : pad_fn p batch = some (src, trg)) (i : Nat)
    (hi : i < batch.length) :
    (src.token_ids.getD i []).take ((batch.getD i ([], [])).1.length)
        = (batch.getD i ([], [])).1
    ∧ (trg.token_ids.getD i []).take ((batch.getD i ([], [])).2.length)
        = (batch.getD i ([], [])).2 := by
  obtain ⟨hne, rfl, rfl⟩ := pad_fn_some_inv h
  constructor
  · have hi' : i < (batch.map Prod.fst).length := by simpa using hi
    have hle := length_getD_le_batchMax hi'
    rw [getD_map_fst] at hle
    rw [padTokens_ids_getD hi', getD_map_fst, fillRow_eq_append hle]
    exact List.take_left _ _
  · have hi' : i < (batch.map Prod.snd).length := by simpa using hi
    have hle := length_getD_le_batchMax hi'
    rw [getD_map_snd] at hle
    rw [padTokens_ids_getD hi', getD_map_snd, fillRow_eq_append hle]
    exact List.take_left _ _

/-- C4 witness: on a batch of source lengths 2, 1, row 0 of the source
grid starts with its input sequence. -/
theorem C4_row_take_eq_input_witness :
    pad_fn 0 [([1, 2], [9]), ([3], [8])] =
      some (({ token_ids := [[1, 2], [3, 0]],
               mask := [[true, true], [true, false]] } : Tokens),
            ({ token_ids := [[9], [8]],
               mask := [[true], [true]] } : Tokens)) ∧
    (({ token_ids := [[1, 2], [3, 0]],
        mask := [[true, true], [true, false]] } : Tokens).token_ids.getD 0 []).take
          (([([1, 2], [9]), ([3], [8])].getD 0 ([], [])).1.length)
      = ([([1, 2], [9]), ([3], [8])].getD 0 ([], [])).1 :=
  ⟨by decide,
    (C4_row_take_eq_input 0 [([1, 2], [9]), ([3], [8])]
      ({ token_ids := [[1, 2], [3, 0]],
         mask := [[true, true], [true, false]] } : Tokens)
      ({ token_ids := [[9], [8]], mask := [[true], [true]] } : Tokens)
      (by decide) 0 (by decide)).1⟩

/-- C5: `PadFunction` pads and masks source and target independently — the
source structure is a function of the source sequences alone, the target
structure of the target sequences alone — and on the batch `[([1],[2,3])]`
the two widths differ. -/
theorem C5_source_target_independent :
    (∀ (p : Nat) (b1 b2 : List (List Nat × List Nat)) (s1 t1 s2 t2 : Tokens),
        b1.map Prod.fst = b2.map Prod.fst →
        pad_fn p b1 = some (s1, t1) → pad_fn p b2 = some (s2, t2) → s1 = s2)
    ∧ (∀ (p : Nat) (b1 b2 : List (List Nat × List Nat)) (s1 t1 s2 t2 : Tokens),
        b1.map Prod.snd = b2.map Prod.snd →
        pad_fn p b1 = some (s1, t1) → pad_fn p b2 = some (s2, t2) → t1 = t2)
    ∧ (∃ s t : Tokens, pad_fn 0 [([1], [2, 3])] = some (s, t)
        ∧ shape1 s.token_ids ≠ shape1 t.token_ids) := by
  refine ⟨?_, ?_, ?_⟩
  · intro p b1 b2 s1 t1 s2 t2 he h1 h2
    obtain ⟨_, rfl, -⟩ := pad_fn_some_inv h1
    obtain ⟨_, rfl, -⟩ := pad_fn_some_inv h2
    rw [he]
  · intro p b1 b2 s1 t1 s2 t2 he h1 h2
    obtain ⟨_, -, rfl⟩ := pad_fn_some_inv h1
    obtain ⟨_, -, rfl⟩ := pad_fn_some_inv h2
    rw [he]
  · exact ⟨({ token_ids := [[1]], mask := [[true]] } : Tokens),
      ({ token_ids := [[2, 3]], mask := [[true, true]] } : Tokens),
      by decide, by decide⟩

/-- C5 witness: two batches with equal source columns but different target
columns produce the same source structure. -/
theorem C5_source_target_independent_witness :
    ([([1], [2])].map Prod.fst = [([1], [3, 4])].map Prod.fst) ∧
    pad_fn 0 [([1], [2])] =
      some (({ token_ids := [[1]], mask := [[true]] } : Tokens),
            ({ token_ids := [[2]], mask := [[true]] } : Tokens)) ∧
    pad_fn 0 [([1], [3, 4])] =
      some (({ token_ids := [[1]], mask := [[true]] } : Tokens),
            ({ token_ids := [[3, 4]], mask := [[true, true]] } : Tokens)) ∧
    ({ token_ids := [[1]], mask := [[true]] } : Tokens)
      = ({ token_ids := [[1]], mask := [[true]] } : Tokens) :=
  ⟨by decide, by decide, by decide,
    C5_source_target_independent.1 0 [([1], [2])] [([1], [3, 4])]
      ({ token_ids := [[1]], mask := [[true]] } : Tokens)
      ({ token_ids := [[2]], mask := [[true]] } : Tokens)
      ({ token_ids := [[1]], mask := [[true]] } : Tokens)
      ({ token_ids := [[3, 4]], mask := [[true, true]] } : Tokens)
      (by decide) (by decide) (by decide)⟩

theorem batchMax_le {l : List Nat} {b : Nat} (h : ∀ x ∈ l, x ≤ b) :
    batchMax l ≤ b := by
  induction l with
  | nil => exact Nat.zero_le b
  | cons a tl ih =>
    exact Nat.max_le.mpr ⟨h a (List.mem_cons_self a tl),
      ih fun x hx => h x (List.mem_cons_of_mem a hx)⟩

theorem merge_some_inv {p : Nat} {seqs : List (List Nat)}
    {g : List (List Nat)} {ls : List Nat}
    (h : merge p seqs none = some (g, ls)) :
    seqs ≠ [] ∧ g = seqs.map (fillRow p (batchMax (seqs.map List.length)))
      ∧ ls = seqs.map List.length := by
  have hne : seqs ≠ [] := by
    rintro rfl
    simp [merge, listMax] at h
  rw [merge_of_ne_nil p hne] at h
  have h2 := Option.some_inj.mp h
  exact ⟨hne, (congrArg Prod.fst h2).symm, (congrArg Prod.snd h2).symm⟩

/-- C7 counterexample: on the single-sequence batch `[[1, 2, 3]]` (so
`N = 1`, max length `3`) the grid built by `merge` has `1` row and width
`3` — it is not a max-length-rows by `N`-columns grid, which here would
have `3` rows and width `1`. -/
theorem C7_grid_shape_counterexample :
    (merge 0 [[1, 2, 3]] none).map (fun r => (r.1.length, shape1 r.1))
        = some (1, 3)
    ∧ ¬ (merge 0 [[1, 2, 3]] none).map (fun r => (r.1.length, shape1 r.1))
        = some (3, 1) := by
  decide

/-- C7 (amended): when collating a batch of `N` sequences, `merge`
allocates the padded grid as an `N` × max-length grid — `N` rows, one per
sequence, each of width the batch maximum — filled with the pad id, into
which each sequence is copied (row `i` is sequence `i` followed by pad
ids). -/
theorem C7_grid_shape_amended (p : Nat) (seqs : List (List Nat))
    (g : List (List Nat)) (ls : List Nat)
    (h : merge p seqs none = some (g, ls)) :
    g.length = seqs.length
    ∧ (∀ row ∈ g, row.length = batchMax (seqs.map List.length))
    ∧ ∀ i, i < seqs.length →
        g.getD i [] = seqs.getD i []
          ++ List.replicate
              (batchMax (seqs.map List.length) - (seqs.getD i []).length) p := by
  obtain ⟨hne, rfl, -⟩ := merge_some_inv h
  refine ⟨by simp, ?_, ?_⟩
  · intro row hrow
    rcases List.mem_map.mp hrow with ⟨seq, -, rfl⟩
    exact fillRow_length _ _ _
  · intro i hi
    rw [getD_map_lt _ hi [] [], fillRow_eq_append (length_getD_le_batchMax hi)]

/-- C7 witness: concrete instantiation of the amended claim on the batch
`[[1, 2], [3]]` with pad id 9. -/
theorem C7_grid_shape_amended_witness :
    merge 9 [[1, 2], [3]] none = some ([[1, 2], [3, 9]], [2, 1]) ∧
    ([[1, 2], [3, 9]] : List (List Nat)).length = ([[1, 2], [3]] : List (List Nat)).length ∧
    ([[1, 2], [3, 9]] : List (List Nat)).getD 1 []
      = ([[1, 2], [3]] : List (List Nat)).getD 1 []
        ++ List.replicate
            (batchMax (([[1, 2], [3]] : List (List Nat)).map List.length)
              - (([[1, 2], [3]] : List (List Nat)).getD 1 []).length) 9 :=
  ⟨by decide,
    (C7_grid_shape_amended 9 [[1, 2], [3]] [[1, 2], [3, 9]] [2, 1] (by decide)).1,
    (C7_grid_shape_amended 9 [[1, 2], [3]] [[1, 2], [3, 9]] [2, 1] (by decide)).2.2
      1 (by decide)⟩

/-- C8: on a non-empty batch whose source and target sequences are all
empty, `pad_fn` still returns: both grids and both masks have one row per
batch element and every row has zero width. -/
theorem C8_all_empty_sequences (p : Nat) (batch : List (List Nat × List Nat))
    (hne : batch ≠ []) (hall : ∀ pr ∈ batch, pr.1 = [] ∧ pr.2 = []) :
    ∃ src trg : Tokens, pad_fn p batch = some (src, trg)
      ∧ src.token_ids.length = batch.length
      ∧ trg.token_ids.length = batch.length
      ∧ src.mask.length = batch.length
      ∧ trg.mask.length = batch.length
      ∧ (∀ row ∈ src.token_ids, row = [])
      ∧ (∀ row ∈ trg.token_ids, row = [])
      ∧ (∀ row ∈ src.mask, row = [])
      ∧ (∀ row ∈ trg.mask, row = []) := by
  have hMs : batchMax ((batch.map Prod.fst).map List.length) = 0 := by
    refine Nat.le_zero.mp (batchMax_le ?_)
    intro x hx
    rcases List.mem_map.mp hx with ⟨seq, hseq, rfl⟩
    rcases List.mem_map.mp hseq with ⟨pr, hpr, rfl⟩
    rw [(hall pr hpr).1]
    exact Nat.le_refl 0
  have hMt : batchMax ((batch.map Prod.snd).map List.length) = 0 := by
    refine Nat.le_zero.mp (batchMax_le ?_)
    intro x hx
    rcases List.mem_map.mp hx with ⟨seq, hseq, rfl⟩
    rcases List.mem_map.mp hseq with ⟨pr, hpr, rfl⟩
    rw [(hall pr hpr).2]
    exact Nat.le_refl 0
  refine ⟨_, _, pad_fn_of_ne_nil p hne, by simp [padTokens_token_ids_length],
    by simp [padTokens_token_ids_length], by simp [padTokens_mask_length],
    by simp [padTokens_mask_length], ?_, ?_, ?_, ?_⟩
  · intro row hrow
    rcases List.mem_map.mp hrow with ⟨seq, -, rfl⟩
    rw [hMs]
    rfl
  · intro row hrow
    rcases List.mem_map.mp hrow with ⟨seq, -, rfl⟩
    rw [hMt]
    rfl
  · intro row hrow
    rcases List.mem_map.mp hrow with ⟨L, -, rfl⟩
    rw [hMs]
    rfl
  · intro row hrow
    rcases List.mem_map.mp hrow with ⟨L, -, rfl⟩
    rw [hMt]
    rfl

/-- C8 witness: a batch of two all-empty pairs yields two rows of zero
width everywhere. -/
theorem C8_all_empty_sequences_witness :
    ([(([] : List Nat), ([] : List Nat)), ([], [])] ≠ []) ∧
    ∃ src trg : Tokens,
      pad_fn 0 [(([] : List Nat), ([] : List Nat)), ([], [])] = some (src, trg)
      ∧ src.token_ids.length = 2 ∧ trg.token_ids.length = 2
      ∧ src.mask.length = 2 ∧ trg.mask.length = 2
      ∧ (∀ row ∈ src.token_ids, row = [])
      ∧ (∀ row ∈ trg.token_ids, row = [])
      ∧ (∀ row ∈ src.mask, row = [])
      ∧ (∀ row ∈ trg.mask, row = []) := by
  refine ⟨by decide, ?_⟩
  have := C8_all_empty_sequences 0 [(([] : List Nat), ([] : List Nat)), ([], [])]
    (by decide) (by decide)
  simpa using this

theorem padTokens_mask_row_length {p : Nat} {seqs : List (List Nat)} {i : Nat}
    (hi : i < seqs.length) :
    ((padTokens p seqs).mask.getD i []).length
      = batchMax (seqs.map List.length) := by
  have h1 : ((seqs.map List.length).map (fun L =>
        (List.range (batchMax (seqs.map List.length))).map
          fun j => decide (j < L))).getD i []
      = (List.range (batchMax (seqs.map List.length))).map
          fun j => decide (j < (seqs.map List.length).getD i 0) :=
    getD_map_lt _ (by simpa using hi) 0 []
  rw [show (padTokens p seqs).mask = (seqs.map List.length).map fun L =>
      (List.range (batchMax (seqs.map List.length))).map
        fun j => decide (j < L) from rfl, h1]
  simp

theorem padTokens_ids_row_length {p : Nat} {seqs : List (List Nat)} {i : Nat}
    (hi : i < seqs.length) :
    ((padTokens p seqs).token_ids.getD i []).length
      = batchMax (seqs.map List.length) := by
  rw [padTokens_ids_getD hi, fillRow_length]

/-- C9: in every structure returned by `PadFunction`, the mask has exactly
the shape of the `token_ids` grid: the same number of rows, and every mask
row as wide as the corresponding `token_ids` row. -/
theorem C9_mask_shape_eq_token_ids_shape (p : Nat)
    (batch : List (List Nat × List Nat)) (src trg : Tokens)
    (h : pad_fn p batch = some (src, trg)) :
    src.mask.length = src.token_ids.length
    ∧ trg.mask.length = trg.token_ids.length
    ∧ (∀ i, i < src.mask.length →
        (src.mask.getD i []).length = (src.token_ids.getD i []).length)
    ∧ (∀ i, i < trg.mask.length →
        (trg.mask.getD i []).length = (trg.token_ids.getD i []).length) := by
  obtain ⟨hne, rfl, rfl⟩ := pad_fn_some_inv h
  refine ⟨by rw [padTokens_mask_length, padTokens_token_ids_length],
    by rw [padTokens_mask_length, padTokens_token_ids_length], ?_, ?_⟩
  · intro i hi
    rw [padTokens_mask_length] at hi
    rw [padTokens_mask_row_length hi, padTokens_ids_row_length hi]
  · intro i hi
    rw [padTokens_mask_length] at hi
    rw [padTokens_mask_row_length hi, padTokens_ids_row_length hi]

/-- C9 witness: concrete instantiation on the batch `[([1, 2], [5]), ([3], [6])]`. -/
theorem C9_mask_shape_eq_token_ids_shape_witness :
    pad_fn 0 [([1, 2], [5]), ([3], [6])] =
      some (({ token_ids := [[1, 2], [3, 0]],
               mask := [[true, true], [true, false]] } : Tokens),
            ({ token_ids := [[5], [6]],
               mask := [[true], [true]] } : Tokens)) ∧
    ({ token_ids := [[1, 2], [3, 0]],
       mask := [[true, true], [true, false]] } : Tokens).mask.length
      = ({ token_ids := [[1, 2], [3, 0]],
           mask := [[true, true], [true, false]] } : Tokens).token_ids.length :=
  ⟨by decide,
    (C9_mask_shape_eq_token_ids_shape 0 [([1, 2], [5]), ([3], [6])]
      ({ token_ids := [[1, 2], [3, 0]],
         mask := [[true, true], [true, false]] } : Tokens)
      ({ token_ids := [[5], [6]], mask := [[true], [true]] } : Tokens)
      (by decide)).1⟩

/-- C10: on the empty batch the collator does not produce a result — the
unpacking of the transposed batch fails — while every non-empty batch does
produce one; the collator is only defined for `N ≥ 1`. -/
theorem C10_empty_batch_undefined :
    (∀ p : Nat, pad_fn p [] = none)
    ∧ ∀ (p : Nat) (batch : List (List Nat × List Nat)),
        batch ≠ [] → (pad_fn p batch).isSome = true := by
  refine ⟨fun p => rfl, fun p batch h => ?_⟩
  rw [pad_fn_of_ne_nil p h]
  rfl

/-- C10 witness: the empty batch gives `none`; the singleton batch
`[([1], [2])]` gives a result. -/
theorem C10_empty_batch_undefined_witness :
    pad_fn 0 [] = none
    ∧ ([([1], [2])] : List (List Nat × List Nat)) ≠ []
    ∧ (pad_fn 0 [([1], [2])]).isSome = true :=
  ⟨C10_empty_batch_undefined.1 0, by decide,
    C10_empty_batch_undefined.2 0 [([1], [2])] (by decide)⟩

/-- C6: `training_step` and `validation_step` feed the decoder the target
`token_ids` and `mask` with the last position removed, score the resulting
logits against the target ids shifted left by one, and pass the pad token
id as the loss ignore index, so the loss is insensitive to the
per-position loss values at positions whose target is the pad id;
`validation_step` computes the same quantity as `training_step`. -/
theorem C6_teacher_forced_loss {α : Type} :
    (∀ (p : Nat) (fwd : Tokens → Tokens → List (List α)) (ell : α → Nat → ℚ)
        (inputs labels : Tokens),
        training_step p fwd ell (inputs, labels)
          = crossEntropyLoss p ell
              ((fwd { token_ids := inputs.token_ids, mask := inputs.mask }
                  { token_ids := labels.token_ids.map List.dropLast,
                    mask := labels.mask.map List.dropLast }).flatten.zip
                (labels.token_ids.map List.tail).flatten)
        ∧ validation_step p fwd ell (inputs, labels)
          = training_step p fwd ell (inputs, labels))
    ∧ ∀ (p : Nat) (fwd : Tokens → Tokens → List (List α))
        (ell ell' : α → Nat → ℚ) (b : Tokens × Tokens),
        (∀ a t, t ≠ p → ell a t = ell' a t) →
        training_step p fwd ell b = training_step p fwd ell' b := by
  have hdrop : ∀ (g : List (List Nat)), dropLastCol g = g.map List.dropLast := by
    intro g
    refine List.map_congr_left fun r hr => ?_
    rw [List.dropLast_eq_take]
  have hdropB : ∀ (g : List (List Bool)), dropLastCol g = g.map List.dropLast := by
    intro g
    refine List.map_congr_left fun r hr => ?_
    rw [List.dropLast_eq_take]
  have hshift : ∀ (g : List (List Nat)), shiftCol g = g.map List.tail := by
    intro g
    refine List.map_congr_left fun r hr => ?_
    rw [List.drop_one]
  constructor
  · intro p fwd ell inputs labels
    constructor
    · rw [training_step]
      rw [hdrop, hdropB, hshift]
    · rfl
  · intro p fwd ell ell' b hagree
    rw [training_step, training_step, crossEntropyLoss, crossEntropyLoss]
    have hmap : ((
        ((fwd { token_ids := b.1.token_ids, mask := b.1.mask }
            { token_ids := dropLastCol b.2.token_ids,
              mask := dropLastCol b.2.mask }).flatten.zip
          (shiftCol b.2.token_ids).flatten).filter
            fun pq => pq.2 != p).map fun pq => ell pq.1 pq.2)
        = (((fwd { token_ids := b.1.token_ids, mask := b.1.mask }
            { token_ids := dropLastCol b.2.token_ids,
              mask := dropLastCol b.2.mask }).flatten.zip
          (shiftCol b.2.token_ids).flatten).filter
            fun pq => pq.2 != p).map fun pq => ell' pq.1 pq.2 := by
      refine List.map_congr_left fun pq hpq => ?_
      have := (List.mem_filter.mp hpq).2
      exact hagree pq.1 pq.2 (by simpa using this)
    rw [hmap]

/-- C6 witness: concrete instantiation with a trivial forward and two loss
kernels agreeing away from the pad id. -/
theorem C6_teacher_forced_loss_witness :
    (∀ (a t : Nat), t ≠ 0 →
        (fun (_ : Nat) (_ : Nat) => (1 : ℚ)) a t
          = (fun (_ : Nat) (t : Nat) => if t = 0 then (2 : ℚ) else 1) a t)
    ∧ training_step 0 (fun a _ => [a.token_ids.flatten])
        (fun (_ : Nat) (_ : Nat) => (1 : ℚ))
        (({ token_ids := [[1]], mask := [[true]] } : Tokens),
         ({ token_ids := [[2, 0]], mask := [[true, false]] } : Tokens))
      = training_step 0 (fun a _ => [a.token_ids.flatten])
        (fun (_ : Nat) (t : Nat) => if t = 0 then (2 : ℚ) else 1)
        (({ token_ids := [[1]], mask := [[true]] } : Tokens),
         ({ token_ids := [[2, 0]], mask := [[true, false]] } : Tokens)) :=
  ⟨fun a t ht => by simp [ht],
    C6_teacher_forced_loss.2 0 (fun a _ => [a.token_ids.flatten])
      (fun _ _ => (1 : ℚ)) (fun _ t => if t = 0 then (2 : ℚ) else 1)
      (({ token_ids := [[1]], mask := [[true]] } : Tokens),
       ({ token_ids := [[2, 0]], mask := [[true, false]] } : Tokens))
      (fun a t ht => by simp [ht])⟩

end DeepT
